import Mathlib

/-!
Verification of the ARA custom antenna module (`custom/ara/antenna.py`).

The Python module is shallowly embedded here: floating-point values are
modelled as real numbers, numpy arrays as lists of reals, and fallible
operations (those that `raise`) as `Except String` results.  The embedding
follows the source line by line; collaborator operations supplied by the
host framework (pyrex `Signal.filter_frequencies`, coordinate conversion,
noise generation) are passed in as explicit parameters, since their code
is outside this module.
-/

namespace PyrexARA

/-- pyrex `Signal.ValueTypes` enumeration. -/
inductive ValueType
  | undefined
  | voltage
  | field
  | power
deriving DecidableEq

/-- A pyrex `Signal`: sampled times, sampled values, and a value-type tag.
A `Signal` built without an explicit value type gets `undefined`. -/
structure Sig where
  times : List ℝ
  values : List ℝ
  value_type : ValueType

/-- Sample spacing of a signal, `times[1] - times[0]` (0 if fewer than two
samples). -/
noncomputable def Sig.dt (s : Sig) : ℝ :=
  match s.times with
  | t0 :: t1 :: _ => t1 - t0
  | _ => 0

/-- `np.clip(x, a_min=lo, a_max=hi)`: maximum with `lo`, then minimum with
`hi`. -/
noncomputable def npClip (x lo hi : ℝ) : ℝ := min (max x lo) hi

/-- `np.mean` of a list of samples. -/
noncomputable def npMean (l : List ℝ) : ℝ := l.sum / l.length

/-- `np.min` of a (nonempty) array; 0 for the empty list, on which numpy
raises instead. -/
noncomputable def listMin : List ℝ → ℝ
  | [] => 0
  | x :: xs => xs.foldl min x

/-- `np.max` of a (nonempty) array; 0 for the empty list, on which numpy
raises instead. -/
noncomputable def listMax : List ℝ → ℝ
  | [] => 0
  | x :: xs => xs.foldl max x

/-- `scipy.signal.convolve(a, b, mode=full)`: element `k` of the result is
`sum_i a_i * b_(k-i)`, with out-of-range indices contributing 0. -/
noncomputable def fullConv (a b : List ℝ) : List ℝ :=
  (List.range (a.length + b.length - 1)).map (fun k =>
    ∑ i in Finset.range (k + 1), a.getD i 0 * b.getD (k - i) 0)

/-- Python float `%`: `x - y * floor(x / y)` (sign follows the divisor). -/
noncomputable def pmod (x y : ℝ) : ℝ := x - y * ⌊x / y⌋

/-- `np.degrees`: radians to degrees. -/
noncomputable def degrees (x : ℝ) : ℝ := x * (180 / Real.pi)

/-- Dot product of 3-vectors (`np.vdot` on real inputs). -/
noncomputable def dot3 (a b : ℝ × ℝ × ℝ) : ℝ :=
  a.1 * b.1 + a.2.1 * b.2.1 + a.2.2 * b.2.2

/-- State of an `ARAAntenna`: its z-axis, optional response table (gain and
phase per `(freq, theta, phi)` key; `none` models `response_data is None`),
list of response frequencies, the base-class `efficiency` and
`antenna_factor` scalars, and the accumulated list of received signals. -/
structure ARAAntenna where
  z_axis : ℝ × ℝ × ℝ
  response_data : Option (ℝ × ℤ × ℤ → ℝ × ℝ)
  response_freqs : List ℝ
  efficiency : ℝ
  antenna_factor : ℝ
  signals : List Sig

/-- `ARAAntenna.polarization_gain`: dot product of the polarization with the
antenna's z-axis. -/
noncomputable def polarization_gain (ant : ARAAntenna) (polarization : ℝ × ℝ × ℝ) : ℝ :=
  dot3 ant.z_axis polarization

/-- `np.degrees(theta) % 180` from `generate_freq_gains`. -/
noncomputable def theta_reduced (theta : ℝ) : ℝ := pmod (degrees theta) 180

/-- `np.degrees(phi) % 360` from `generate_freq_gains`. -/
noncomputable def phi_reduced (phi : ℝ) : ℝ := pmod (degrees phi) 360

/-- `theta_under = 5*int(theta/5)` (the reduced angle is nonnegative, so
`int` truncation is the floor). -/
noncomputable def theta_under (theta : ℝ) : ℤ := 5 * ⌊theta_reduced theta / 5⌋

/-- `theta_over = 5*(int(theta/5)+1)`, before the `%= 180` wrap. -/
noncomputable def theta_over (theta : ℝ) : ℤ := 5 * (⌊theta_reduced theta / 5⌋ + 1)

/-- `phi_under = 5*int(phi/5)`. -/
noncomputable def phi_under (phi : ℝ) : ℤ := 5 * ⌊phi_reduced phi / 5⌋

/-- `phi_over = 5*(int(phi/5)+1)`, before the `%= 360` wrap. -/
noncomputable def phi_over (phi : ℝ) : ℤ := 5 * (⌊phi_reduced phi / 5⌋ + 1)

/-- Bilinear weight `t = (theta - theta_under) / (theta_over - theta_under)`. -/
noncomputable def t_weight (theta : ℝ) : ℝ :=
  (theta_reduced theta - theta_under theta) /
    ((theta_over theta : ℝ) - (theta_under theta : ℝ))

/-- Bilinear weight `u = (phi - phi_under) / (phi_over - phi_under)`. -/
noncomputable def u_weight (phi : ℝ) : ℝ :=
  (phi_reduced phi - phi_under phi) /
    ((phi_over phi : ℝ) - (phi_under phi : ℝ))

/-- The bilinearly blended gain for one frequency, as computed by the loop
body and final blend of `generate_freq_gains`; the over-indices are wrapped
(`theta_over %= 180`, `phi_over %= 360`) before the table lookups. -/
noncomputable def gain_at (data : ℝ × ℤ × ℤ → ℝ × ℝ) (theta phi freq : ℝ) : ℝ :=
  (1 - t_weight theta) * (1 - u_weight phi) *
      (data (freq, theta_under theta, phi_under phi)).1 +
    t_weight theta * (1 - u_weight phi) *
      (data (freq, theta_over theta % 180, phi_under phi)).1 +
    (1 - t_weight theta) * u_weight phi *
      (data (freq, theta_under theta, phi_over phi % 360)).1 +
    t_weight theta * u_weight phi *
      (data (freq, theta_over theta % 180, phi_over phi % 360)).1

/-- `ARAAntenna.generate_freq_gains`: returns `([1], [1])` when there is no
response table, otherwise the response frequencies paired with the
bilinearly interpolated gains. -/
noncomputable def generate_freq_gains (ant : ARAAntenna) (theta phi : ℝ) :
    List ℝ × List ℝ :=
  match ant.response_data with
  | none => ([1], [1])
  | some data => (ant.response_freqs, ant.response_freqs.map (gain_at data theta phi))

/-- Host-framework collaborators used by `ARAAntenna.receive`: the effect of
`filter_frequencies(self.response)` on a signal's values, the antenna-frame
coordinate conversion, the effect of `filter_frequencies` with the
interpolated gain response, and vector normalization. -/
structure Collaborators where
  filterResponse : Sig → List ℝ
  toAntennaCoordinates : ℝ × ℝ × ℝ → ℝ × ℝ × ℝ
  filterInterp : List ℝ × List ℝ → Sig → List ℝ
  normalize3 : ℝ × ℝ × ℝ → ℝ × ℝ × ℝ

/-- `ARAAntenna.receive`: copy the signal as a voltage signal, apply the
antenna's frequency response, optionally apply the angle-dependent gain
filter and the polarization gain, scale by the efficiency factor (divided by
the antenna factor for field-type inputs), and append to the signal list.
Value types other than voltage and field raise a `ValueError`. -/
noncomputable def receive (C : Collaborators) (ant : ARAAntenna) (signal : Sig)
    (origin : Option (ℝ × ℝ × ℝ)) (polarization : Option (ℝ × ℝ × ℝ)) :
    Except String ARAAntenna :=
  let copy1 : Sig := ⟨signal.times,
    C.filterResponse ⟨signal.times, signal.values, ValueType.voltage⟩,
    ValueType.voltage⟩
  let copy2 : Sig :=
    match origin with
    | none => copy1
    | some o =>
      let rtp := C.toAntennaCoordinates o
      let fg := generate_freq_gains ant rtp.2.1 rtp.2.2
      ⟨copy1.times, C.filterInterp fg copy1, ValueType.voltage⟩
  let p_gain : ℝ :=
    match polarization with
    | none => 1
    | some p => polarization_gain ant (C.normalize3 p)
  let signal_factor : ℝ := p_gain * ant.efficiency
  match signal.value_type with
  | ValueType.voltage =>
    Except.ok ⟨ant.z_axis, ant.response_data, ant.response_freqs,
      ant.efficiency, ant.antenna_factor,
      ant.signals ++ [⟨copy2.times, copy2.values.map (· * signal_factor),
        copy2.value_type⟩]⟩
  | ValueType.field =>
    Except.ok ⟨ant.z_axis, ant.response_data, ant.response_freqs,
      ant.efficiency, ant.antenna_factor,
      ant.signals ++ [⟨copy2.times,
        copy2.values.map (· * (signal_factor / ant.antenna_factor)),
        copy2.value_type⟩]⟩
  | _ => Except.error "Signal's value type must be either voltage or field."

/-- State of an `ARAAntennaSystem`: amplification and clipping settings, the
trigger threshold, the cached noise calibration scalars `_power_mean` and
`_power_rms`, and the owned antenna's resistance. -/
structure ARAAntennaSystem where
  amplification : ℝ
  amplifier_clipping : ℝ
  power_threshold : ℝ
  power_mean : ℝ
  power_rms : ℝ
  resistance : ℝ

/-- `_td_args['down1'] = (-0.8, 15e-9, 2.3e-9, 0)`. -/
noncomputable def td_down1 : ℝ × ℝ × ℝ × ℝ := (-0.8, 15e-9, 2.3e-9, 0)

/-- `_td_args['down2'] = (-0.2, 15e-9, 4e-9, 0)`. -/
noncomputable def td_down2 : ℝ × ℝ × ℝ × ℝ := (-0.2, 15e-9, 4e-9, 0)

/-- The initial `_td_args['up'] = (1, 18e-9, 7e-9, 1e9)` before its first
component is replaced. -/
noncomputable def td_up_init : ℝ × ℝ × ℝ × ℝ := (1, 18e-9, 7e-9, 1e9)

/-- The final `_td_args['up']`: the first component is recomputed as
`-sqrt(2*pi) * (down1[0]*down1[2] + down2[0]*down2[2]) / (2e18*up[2]**3)`,
the rest is kept. -/
noncomputable def td_up : ℝ × ℝ × ℝ × ℝ :=
  (-Real.sqrt (2 * Real.pi) *
      (td_down1.1 * td_down1.2.2.1 + td_down2.1 * td_down2.2.2.1) /
      (2e18 * td_up_init.2.2.1 ^ 3),
    td_up_init.2.1, td_up_init.2.2.1, td_up_init.2.2.2)

/-- `ARAAntennaSystem._td_fdown1`. -/
noncomputable def td_fdown1 (x : ℝ) : ℝ :=
  td_down1.2.2.2 + td_down1.1 *
    Real.exp (-(x - td_down1.2.1) ^ 2 / (2 * td_down1.2.2.1 ^ 2))

/-- `ARAAntennaSystem._td_fdown2`. -/
noncomputable def td_fdown2 (x : ℝ) : ℝ :=
  td_down2.2.2.2 + td_down2.1 *
    Real.exp (-(x - td_down2.2.1) ^ 2 / (2 * td_down2.2.2.1 ^ 2))

/-- `ARAAntennaSystem._td_fup`. -/
noncomputable def td_fup (x : ℝ) : ℝ :=
  td_up.1 * (td_up.2.2.2 * (x - td_up.2.1)) ^ 2 *
    Real.exp (-(x - td_up.2.1) / td_up.2.2.1)

/-- `n_pts = int(t_max / signal.dt)` with `t_max = 1e-7`. -/
noncomputable def n_pts (dt : ℝ) : ℕ := (⌊(1e-7 : ℝ) / dt⌋).toNat

/-- `times = np.linspace(0, 1e-7, n_pts+1)`: the sample times of the diode
response kernel. -/
noncomputable def diodeTimes (dt : ℝ) : List ℝ :=
  (List.range (n_pts dt + 1)).map (fun k : ℕ => (k : ℝ) * (1e-7 / (n_pts dt : ℝ)))

/-- The sampled diode response kernel: `fdown1 + fdown2`, plus `fup` on the
slice `times > _td_args['up'][1]`. -/
noncomputable def diodeResp (dt : ℝ) : List ℝ :=
  (diodeTimes dt).map (fun t =>
    td_fdown1 t + td_fdown2 t + if td_up.2.1 < t then td_fup t else 0)

/-- The values produced by `tunnel_diode`: the full convolution of
`signal.values**2 / resistance` with the sampled kernel, multiplied by
`signal.dt`, truncated by the `Signal` constructor to the length of
`signal.times`. -/
noncomputable def td_values (st : ARAAntennaSystem) (s : Sig) : List ℝ :=
  (((fullConv (s.values.map (fun v => v ^ 2 / st.resistance)) (diodeResp s.dt)).map
    (· * s.dt)).take s.times.length)

/-- `ARAAntennaSystem.tunnel_diode`: raises unless the input value type is
voltage, otherwise returns `Signal(signal.times, conv*signal.dt)` (whose
value type is left as the default `undefined`). -/
noncomputable def tunnel_diode (st : ARAAntennaSystem) (s : Sig) : Except String Sig :=
  if s.value_type ≠ ValueType.voltage then
    Except.error "Tunnel diode only accepts voltage signals"
  else
    Except.ok ⟨s.times, td_values st s, ValueType.undefined⟩

/-- `ARAAntennaSystem.front_end`: multiply by the amplification and clip to
`[-amplifier_clipping, amplifier_clipping]` (output value type is the
`Signal` default, `undefined`). -/
noncomputable def front_end (st : ARAAntennaSystem) (s : Sig) : Sig :=
  ⟨s.times,
    s.values.map (fun v =>
      npClip (v * st.amplification) (-st.amplifier_clipping) st.amplifier_clipping),
    ValueType.undefined⟩

/-- `low_trigger = _power_mean - _power_rms * np.abs(power_threshold)`. -/
noncomputable def low_trigger (st : ARAAntennaSystem) : ℝ :=
  st.power_mean - st.power_rms * |st.power_threshold|

/-- `high_trigger = _power_mean + _power_rms * np.abs(power_threshold)`. -/
noncomputable def high_trigger (st : ARAAntennaSystem) : ℝ :=
  st.power_mean + st.power_rms * |st.power_threshold|

/-- The comparison at the end of `trigger`:
`np.min(values) < low_trigger or np.max(values) > high_trigger`. -/
noncomputable def trigger_decision (st : ARAAntennaSystem) (power : Sig) : Bool :=
  decide (listMin power.values < low_trigger st ∨
    listMax power.values > high_trigger st)

/-- `ARAAntennaSystem.trigger`: apply `tunnel_diode` to the incoming signal
and compare the result against the calibrated band. -/
noncomputable def trigger (st : ARAAntennaSystem) (s : Sig) : Except String Bool :=
  match tunnel_diode st s with
  | Except.error e => Except.error e
  | Except.ok power => Except.ok (trigger_decision st power)

/-- `_power_mean` as computed in `setup_antenna`: the mean of the raw noise
waveform values. -/
noncomputable def setup_power_mean (noise : Sig) : ℝ := npMean noise.values

/-- `_power_rms` as computed in `setup_antenna`: the root mean square of the
raw noise waveform values. -/
noncomputable def setup_power_rms (noise : Sig) : ℝ :=
  Real.sqrt (npMean (noise.values.map (fun v => v ^ 2)))

/-- Modelled from the spec: the calibration scalar the documentation calls
for, namely the mean of the tunnel-diode response to the noise waveform
(the noise is run through `TunnelDiodeEnvelope` before the mean is taken).
The in-module comment above the calibration code states the same intent. -/
noncomputable def spec_power_mean (st : ARAAntennaSystem) (noise : Sig) : ℝ :=
  npMean (td_values st noise)

/-- Following the spec's words for claim C1: run `front_end`, then
`tunnel_diode`, on the input, and make the threshold comparison on the
result of that two-stage chain. -/
noncomputable def trigger_claimed (st : ARAAntennaSystem) (s : Sig) : Except String Bool :=
  match tunnel_diode st (front_end st s) with
  | Except.error e => Except.error e
  | Except.ok power => Except.ok (trigger_decision st power)

/-- Following the spec's words for claim C4: the output values are the full
convolution of `signal.values` squared divided by the antenna resistance
with the three-lobe kernel, truncated to the input's original number of
samples and scaled by the sample spacing `dt`. -/
noncomputable def tunnel_diode_spec_values (st : ARAAntennaSystem) (s : Sig) : List ℝ :=
  (List.range s.values.length).map (fun k =>
    (∑ i in Finset.range (k + 1),
      (s.values.getD i 0) ^ 2 / st.resistance * (diodeResp s.dt).getD (k - i) 0) * s.dt)

/-- `ARAAntennaSystem` with the power threshold replaced by its negation
(used to state the threshold-sign invariance of `trigger`). -/
noncomputable def negate_threshold (st : ARAAntennaSystem) : ARAAntennaSystem :=
  ⟨st.amplification, st.amplifier_clipping, -st.power_threshold,
    st.power_mean, st.power_rms, st.resistance⟩

/-- A two-sample all-zero voltage signal with sample spacing `2e-7`. -/
noncomputable def sigZero : Sig := ⟨[0, 2e-7], [0, 0], ValueType.voltage⟩

/-- The tunnel-diode output for `sigZero`: an all-zero waveform. -/
noncomputable def powerZero : Sig := ⟨[0, 2e-7], [0, 0], ValueType.undefined⟩

/-- A system calibrated with mean 0, rms 1, threshold 5 (unit amplification,
clipping 3, resistance 100). -/
noncomputable def stUnitCal : ARAAntennaSystem := ⟨1, 3, 5, 0, 1, 100⟩

/-- A system like `stUnitCal` but with amplification 0. -/
noncomputable def stNoAmp : ARAAntennaSystem := ⟨0, 3, 5, 0, 1, 100⟩

/-- A two-sample constant voltage signal of amplitude `1e7`. -/
noncomputable def sigBig : Sig := ⟨[0, 2e-7], [1e7, 1e7], ValueType.voltage⟩

/-- A two-sample constant noise waveform of amplitude 1. -/
noncomputable def noiseConst : Sig := ⟨[0, 2e-7], [1, 1], ValueType.voltage⟩

/-- A trivial instantiation of the host-framework collaborators. -/
noncomputable def wCollab : Collaborators :=
  ⟨fun s => s.values, fun o => o, fun _ s => s.values, fun p => p⟩

/-- A small antenna state with no response table and no stored signals. -/
noncomputable def wAnt : ARAAntenna := ⟨(0, 0, 1), none, [], 1, 2, []⟩

/- ------------------------------------------------------------------ -/
/- Helper lemmas                                                       -/
/- ------------------------------------------------------------------ -/

theorem lt_foldl_min (a : ℝ) (l : List ℝ) :
    ∀ acc : ℝ, a < acc → (∀ x ∈ l, a < x) → a < l.foldl min acc := by
  induction l with
  | nil => intro acc hacc _; exact hacc
  | cons y ys ih =>
    intro acc hacc h
    exact ih (min acc y) (lt_min hacc (h y (by simp)))
      (fun x hx => h x (by simp [hx]))

theorem foldl_max_lt (b : ℝ) (l : List ℝ) :
    ∀ acc : ℝ, acc < b → (∀ x ∈ l, x < b) → l.foldl max acc < b := by
  induction l with
  | nil => intro acc hacc _; exact hacc
  | cons y ys ih =>
    intro acc hacc h
    exact ih (max acc y) (max_lt hacc (h y (by simp)))
      (fun x hx => h x (by simp [hx]))

theorem lt_listMin (a : ℝ) (l : List ℝ) (ha : a < 0)
    (h : ∀ x ∈ l, a < x) : a < listMin l := by
  cases l with
  | nil => exact ha
  | cons x xs =>
    exact lt_foldl_min a xs x (h x (by simp)) (fun y hy => h y (by simp [hy]))

theorem listMax_lt (b : ℝ) (l : List ℝ) (hb : 0 < b)
    (h : ∀ x ∈ l, x < b) : listMax l < b := by
  cases l with
  | nil => exact hb
  | cons x xs =>
    exact foldl_max_lt b xs x (h x (by simp)) (fun y hy => h y (by simp [hy]))

theorem listMin_pair (x y : ℝ) : listMin [x, y] = min x y := rfl

theorem getD_map_zero (f : ℝ → ℝ) (hf : f 0 = 0) (l : List ℝ) (i : ℕ) :
    (l.map f).getD i 0 = f (l.getD i 0) := by
  rcases lt_or_le i l.length with h | h
  · rw [List.getD_eq_getElem?_getD, List.getD_eq_getElem?_getD, List.getElem?_map,
      List.getElem?_eq_getElem h]
    simp
  · rw [List.getD_eq_default, List.getD_eq_default, hf]
    · exact h
    · simpa using h

theorem t_weight_bounds (theta : ℝ) : 0 ≤ t_weight theta ∧ t_weight theta < 1 := by
  have hd : ((theta_over theta : ℝ) - (theta_under theta : ℝ)) = 5 := by
    unfold theta_over theta_under
    push_cast
    ring
  have hfl : ((⌊theta_reduced theta / 5⌋ : ℤ) : ℝ) ≤ theta_reduced theta / 5 :=
    Int.floor_le _
  have hfu : theta_reduced theta / 5 < (⌊theta_reduced theta / 5⌋ : ℤ) + 1 :=
    Int.lt_floor_add_one _
  unfold t_weight
  rw [hd]
  unfold theta_under
  push_cast
  constructor
  · apply div_nonneg _ (by norm_num)
    nlinarith
  · rw [div_lt_one (by norm_num)]
    nlinarith

theorem u_weight_bounds (phi : ℝ) : 0 ≤ u_weight phi ∧ u_weight phi < 1 := by
  have hd : ((phi_over phi : ℝ) - (phi_under phi : ℝ)) = 5 := by
    unfold phi_over phi_under
    push_cast
    ring
  have hfl : ((⌊phi_reduced phi / 5⌋ : ℤ) : ℝ) ≤ phi_reduced phi / 5 :=
    Int.floor_le _
  have hfu : phi_reduced phi / 5 < (⌊phi_reduced phi / 5⌋ : ℤ) + 1 :=
    Int.lt_floor_add_one _
  unfold u_weight
  rw [hd]
  unfold phi_under
  push_cast
  constructor
  · apply div_nonneg _ (by norm_num)
    nlinarith
  · rw [div_lt_one (by norm_num)]
    nlinarith

theorem bilinear_bounds (t u g00 g10 g01 g11 : ℝ)
    (ht0 : 0 ≤ t) (ht1 : t ≤ 1) (hu0 : 0 ≤ u) (hu1 : u ≤ 1) :
    min (min g00 g10) (min g01 g11) ≤
        (1 - t) * (1 - u) * g00 + t * (1 - u) * g10 +
          (1 - t) * u * g01 + t * u * g11 ∧
      (1 - t) * (1 - u) * g00 + t * (1 - u) * g10 +
          (1 - t) * u * g01 + t * u * g11 ≤
        max (max g00 g10) (max g01 g11) := by
  have h00m : min (min g00 g10) (min g01 g11) ≤ g00 :=
    (min_le_left _ _).trans (min_le_left _ _)
  have h10m : min (min g00 g10) (min g01 g11) ≤ g10 :=
    (min_le_left _ _).trans (min_le_right _ _)
  have h01m : min (min g00 g10) (min g01 g11) ≤ g01 :=
    (min_le_right _ _).trans (min_le_left _ _)
  have h11m : min (min g00 g10) (min g01 g11) ≤ g11 :=
    (min_le_right _ _).trans (min_le_right _ _)
  have h00M : g00 ≤ max (max g00 g10) (max g01 g11) :=
    (le_max_left _ _).trans (le_max_left _ _)
  have h10M : g10 ≤ max (max g00 g10) (max g01 g11) :=
    (le_max_right _ _).trans (le_max_left _ _)
  have h01M : g01 ≤ max (max g00 g10) (max g01 g11) :=
    (le_max_left _ _).trans (le_max_right _ _)
  have h11M : g11 ≤ max (max g00 g10) (max g01 g11) :=
    (le_max_right _ _).trans (le_max_right _ _)
  have w00 : (0 : ℝ) ≤ (1 - t) * (1 - u) := mul_nonneg (by linarith) (by linarith)
  have w10 : (0 : ℝ) ≤ t * (1 - u) := mul_nonneg ht0 (by linarith)
  have w01 : (0 : ℝ) ≤ (1 - t) * u := mul_nonneg (by linarith) hu0
  have w11 : (0 : ℝ) ≤ t * u := mul_nonneg ht0 hu0
  constructor
  · nlinarith [mul_le_mul_of_nonneg_left h00m w00, mul_le_mul_of_nonneg_left h10m w10,
      mul_le_mul_of_nonneg_left h01m w01, mul_le_mul_of_nonneg_left h11m w11]
  · nlinarith [mul_le_mul_of_nonneg_left h00M w00, mul_le_mul_of_nonneg_left h10M w10,
      mul_le_mul_of_nonneg_left h01M w01, mul_le_mul_of_nonneg_left h11M w11]

theorem degrees_of_radians (x : ℝ) : degrees (x * Real.pi / 180) = x := by
  unfold degrees
  field_simp

/- ------------------------------------------------------------------ -/
/- C5: empty response table gives flat unity gain                      -/
/- ------------------------------------------------------------------ -/

/-- C5: for an antenna with no measured response (`response_data is None`),
`generate_freq_gains` returns the sentinel flat-unity-gain response
`([1], [1])` for every angle, performing no table lookups. -/
theorem generate_freq_gains_no_data (z : ℝ × ℝ × ℝ) (freqs : List ℝ)
    (eff af : ℝ) (sigs : List Sig) (theta phi : ℝ) :
    generate_freq_gains ⟨z, none, freqs, eff, af, sigs⟩ theta phi = ([1], [1]) :=
  rfl

/- ------------------------------------------------------------------ -/
/- C7: interpolation weights in [0,1), gain between corner gains       -/
/- ------------------------------------------------------------------ -/

/-- C7: for every angle pair the bilinear weights `t` and `u` lie in
`[0, 1)`, and for every (total, rectangular) response table and frequency
the interpolated gain lies between the minimum and maximum of the four
surrounding corner gains. -/
theorem interpolation_weights_and_bounds (theta phi : ℝ)
    (data : ℝ × ℤ × ℤ → ℝ × ℝ) (freq : ℝ) :
    (0 ≤ t_weight theta ∧ t_weight theta < 1) ∧
    (0 ≤ u_weight phi ∧ u_weight phi < 1) ∧
    (min (min (data (freq, theta_under theta, phi_under phi)).1
          (data (freq, theta_over theta % 180, phi_under phi)).1)
        (min (data (freq, theta_under theta, phi_over phi % 360)).1
          (data (freq, theta_over theta % 180, phi_over phi % 360)).1) ≤
        gain_at data theta phi freq ∧
      gain_at data theta phi freq ≤
        max (max (data (freq, theta_under theta, phi_under phi)).1
            (data (freq, theta_over theta % 180, phi_under phi)).1)
          (max (data (freq, theta_under theta, phi_over phi % 360)).1
            (data (freq, theta_over theta % 180, phi_over phi % 360)).1)) := by
  have ht := t_weight_bounds theta
  have hu := u_weight_bounds phi
  refine ⟨ht, hu, ?_⟩
  unfold gain_at
  exact bilinear_bounds _ _ _ _ _ _ ht.1 (le_of_lt ht.2) hu.1 (le_of_lt hu.2)

/- ------------------------------------------------------------------ -/
/- C6: exact table lookup at 5-degree grid points                      -/
/- ------------------------------------------------------------------ -/

theorem reduced_at_grid (n : ℕ) (c : ℝ) (hc : 0 < c)
    (hn : ((5 * n : ℕ) : ℝ) < c) :
    pmod ((5 * n : ℕ) : ℝ) c = ((5 * n : ℕ) : ℝ) := by
  unfold pmod
  have h0 : ⌊((5 * n : ℕ) : ℝ) / c⌋ = 0 := by
    rw [Int.floor_eq_zero_iff]
    constructor
    · positivity
    · rw [div_lt_one hc]
      exact hn
  rw [h0]
  push_cast
  ring

theorem floor_five_mul (n : ℕ) : ⌊((5 * n : ℕ) : ℝ) / 5⌋ = n := by
  push_cast
  rw [mul_comm, mul_div_assoc]
  norm_num

/-- C6: at every exact 5-degree grid point (theta in `{0,...,175}` degrees,
phi in `{0,...,355}` degrees, given here in radians), the interpolated
gains returned by `generate_freq_gains` are exactly the stored table values
at the `(freq, theta, phi)` keys, for every frequency in the table. -/
theorem grid_point_exact (data : ℝ × ℤ × ℤ → ℝ × ℝ) (freqs : List ℝ)
    (z : ℝ × ℝ × ℝ) (eff af : ℝ) (sigs : List Sig) (i j : ℕ)
    (hi : i < 36) (hj : j < 72) :
    generate_freq_gains ⟨z, some data, freqs, eff, af, sigs⟩
        (((5 * i : ℕ) : ℝ) * Real.pi / 180) (((5 * j : ℕ) : ℝ) * Real.pi / 180) =
      (freqs, freqs.map (fun f => (data (f, (5 * (i : ℤ)), (5 * (j : ℤ)))).1)) := by
  set θ : ℝ := ((5 * i : ℕ) : ℝ) * Real.pi / 180 with hθ
  set φ : ℝ := ((5 * j : ℕ) : ℝ) * Real.pi / 180 with hφ
  have hredθ : theta_reduced θ = ((5 * i : ℕ) : ℝ) := by
    unfold theta_reduced
    rw [hθ, degrees_of_radians]
    apply reduced_at_grid i 180 (by norm_num)
    push_cast
    have : (i : ℝ) < 36 := by exact_mod_cast hi
    linarith
  have hredφ : phi_reduced φ = ((5 * j : ℕ) : ℝ) := by
    unfold phi_reduced
    rw [hφ, degrees_of_radians]
    apply reduced_at_grid j 360 (by norm_num)
    push_cast
    have : (j : ℝ) < 72 := by exact_mod_cast hj
    linarith
  have hflθ : ⌊theta_reduced θ / 5⌋ = (i : ℤ) := by
    rw [hredθ]
    exact floor_five_mul i
  have hflφ : ⌊phi_reduced φ / 5⌋ = (j : ℤ) := by
    rw [hredφ]
    exact floor_five_mul j
  have hunderθ : theta_under θ = 5 * (i : ℤ) := by
    unfold theta_under
    rw [hflθ]
  have hunderφ : phi_under φ = 5 * (j : ℤ) := by
    unfold phi_under
    rw [hflφ]
  have htw : t_weight θ = 0 := by
    unfold t_weight theta_under
    rw [hflθ, hredθ]
    push_cast
    rw [div_eq_zero_iff]
    left
    ring
  have huw : u_weight φ = 0 := by
    unfold u_weight phi_under
    rw [hflφ, hredφ]
    push_cast
    rw [div_eq_zero_iff]
    left
    ring
  have hfun : ∀ f, gain_at data θ φ f = (data (f, 5 * (i : ℤ), 5 * (j : ℤ))).1 := by
    intro f
    unfold gain_at
    rw [htw, huw, hunderθ, hunderφ]
    ring
  show (freqs, freqs.map (gain_at data θ φ)) = _
  exact congrArg (Prod.mk freqs) (List.map_congr_left (fun f _ => hfun f))

/-- Witness for C6 at the grid point theta = 35 degrees, phi = 65 degrees,
on a table whose gain at key `(f, th, ph)` is `th + 2*ph`. -/
theorem grid_point_exact_witness :
    7 < 36 ∧ 13 < 72 ∧
      generate_freq_gains
          ⟨(0, 0, 1), some (fun k => ((k.2.1 : ℝ) + 2 * (k.2.2 : ℝ), 0)), [5e8],
            1, 2, []⟩
          (((5 * 7 : ℕ) : ℝ) * Real.pi / 180) (((5 * 13 : ℕ) : ℝ) * Real.pi / 180) =
        (([5e8] : List ℝ), ([5e8] : List ℝ).map (fun f =>
          ((fun (k : ℝ × ℤ × ℤ) => ((k.2.1 : ℝ) + 2 * (k.2.2 : ℝ), (0 : ℝ)))
            (f, (5 * (7 : ℤ)), (5 * (13 : ℤ)))).1)) :=
  ⟨by norm_num, by norm_num,
    grid_point_exact (fun k => ((k.2.1 : ℝ) + 2 * (k.2.2 : ℝ), 0)) [5e8]
      (0, 0, 1) 1 2 [] 7 13 (by norm_num) (by norm_num)⟩

/- ------------------------------------------------------------------ -/
/- C8: tunnel-diode kernel coefficient balance                         -/
/- ------------------------------------------------------------------ -/

/-- C8: the stored amplitude of the `up` lobe of the tunnel-diode kernel
satisfies `A3 = -sqrt(2*pi)*(A1*sigma1 + A2*sigma2)/(2e18*sigma3^3)` with
`A1 = -0.8`, `sigma1 = 2.3e-9`, `A2 = -0.2`, `sigma2 = 4e-9`,
`sigma3 = 7e-9`. -/
theorem td_up_balance :
    td_up.1 = -Real.sqrt (2 * Real.pi) *
      ((-0.8) * 2.3e-9 + (-0.2) * 4e-9) / (2e18 * (7e-9 : ℝ) ^ 3) := by
  norm_num [td_up, td_down1, td_down2, td_up_init]

/- ------------------------------------------------------------------ -/
/- C10: trigger depends only on the threshold magnitude                -/
/- ------------------------------------------------------------------ -/

/-- C10: negating the configured power threshold leaves the result of
`trigger` unchanged on every signal, and whenever the calibrated rms is
nonnegative the trigger band `[low, high]` contains the calibrated mean. -/
theorem trigger_threshold_sign_invariant (st : ARAAntennaSystem) (s : Sig) :
    trigger (negate_threshold st) s = trigger st s ∧
      (0 ≤ st.power_rms →
        low_trigger st ≤ st.power_mean ∧ st.power_mean ≤ high_trigger st) := by
  constructor
  · have htd : tunnel_diode (negate_threshold st) s = tunnel_diode st s := rfl
    have hdec : ∀ p, trigger_decision (negate_threshold st) p = trigger_decision st p := by
      intro p
      unfold trigger_decision low_trigger high_trigger negate_threshold
      simp [abs_neg]
    unfold trigger
    rw [htd]
    cases tunnel_diode st s with
    | error e => rfl
    | ok p => exact congrArg Except.ok (hdec p)
  · intro hrms
    have habs : (0 : ℝ) ≤ |st.power_threshold| := abs_nonneg _
    have hmul : 0 ≤ st.power_rms * |st.power_threshold| := mul_nonneg hrms habs
    unfold low_trigger high_trigger
    constructor <;> linarith

/-- Witness for C10 at a concrete system and signal. -/
theorem trigger_threshold_sign_invariant_witness :
    (0 : ℝ) ≤ 1 ∧
      (trigger (negate_threshold stUnitCal) sigZero = trigger stUnitCal sigZero ∧
        (low_trigger stUnitCal ≤ stUnitCal.power_mean ∧
          stUnitCal.power_mean ≤ high_trigger stUnitCal)) :=
  ⟨by norm_num,
    (trigger_threshold_sign_invariant stUnitCal sigZero).1,
    (trigger_threshold_sign_invariant stUnitCal sigZero).2 (by norm_num [stUnitCal])⟩

/- ------------------------------------------------------------------ -/
/- C9: receive appends exactly one waveform or raises                  -/
/- ------------------------------------------------------------------ -/

/-- C9: for voltage- or field-type inputs `receive` appends exactly one
waveform to the antenna's signal history (new length = prior length + 1);
for every other value type it raises a `ValueError` and no state is
produced (the history is unchanged). -/
theorem receive_appends_or_raises (C : Collaborators) (ant : ARAAntenna)
    (s : Sig) (origin polarization : Option (ℝ × ℝ × ℝ)) :
    (s.value_type = ValueType.voltage ∨ s.value_type = ValueType.field →
      ∃ ant', receive C ant s origin polarization = Except.ok ant' ∧
        ant'.signals.length = ant.signals.length + 1) ∧
    (s.value_type ≠ ValueType.voltage → s.value_type ≠ ValueType.field →
      ∃ e, receive C ant s origin polarization = Except.error e) := by
  obtain ⟨ts, vs, vt⟩ := s
  constructor
  · rintro (h | h) <;> simp only at h <;> subst h <;>
      exact ⟨_, rfl, by simp⟩
  · intro h1 h2
    cases vt with
    | voltage => exact absurd rfl h1
    | field => exact absurd rfl h2
    | undefined => exact ⟨_, rfl⟩
    | power => exact ⟨_, rfl⟩

/-- Witness for C9: a voltage signal is appended (length 0 becomes 1), and a
power-type signal is rejected. -/
theorem receive_appends_or_raises_witness :
    (∃ ant', receive wCollab wAnt ⟨[0], [1], ValueType.voltage⟩ none none =
        Except.ok ant' ∧ ant'.signals.length = wAnt.signals.length + 1) ∧
    (∃ e, receive wCollab wAnt ⟨[0], [1], ValueType.power⟩ none none =
        Except.error e) :=
  ⟨(receive_appends_or_raises wCollab wAnt ⟨[0], [1], ValueType.voltage⟩
      none none).1 (Or.inl rfl),
    (receive_appends_or_raises wCollab wAnt ⟨[0], [1], ValueType.power⟩
      none none).2 (by simp) (by simp)⟩

/- ------------------------------------------------------------------ -/
/- Concrete tunnel-diode evaluations                                   -/
/- ------------------------------------------------------------------ -/

theorem td_fdown1_neg (x : ℝ) : td_fdown1 x < 0 := by
  have h := Real.exp_pos (-(x - td_down1.2.1) ^ 2 / (2 * td_down1.2.2.1 ^ 2))
  have h1 : td_down1.1 < 0 := by norm_num [td_down1]
  have h4 : td_down1.2.2.2 = 0 := by norm_num [td_down1]
  unfold td_fdown1
  rw [h4]
  have := mul_neg_of_neg_of_pos h1 h
  linarith

theorem td_fdown2_neg (x : ℝ) : td_fdown2 x < 0 := by
  have h := Real.exp_pos (-(x - td_down2.2.1) ^ 2 / (2 * td_down2.2.2.1 ^ 2))
  have h1 : td_down2.1 < 0 := by norm_num [td_down2]
  have h4 : td_down2.2.2.2 = 0 := by norm_num [td_down2]
  unfold td_fdown2
  rw [h4]
  have := mul_neg_of_neg_of_pos h1 h
  linarith

theorem exp_quotient_bound : Real.exp (225 / 32 : ℝ) < 2981 := by
  have h1 : Real.exp (225 / 32 : ℝ) < Real.exp 8 := by
    apply Real.exp_lt_exp.mpr
    norm_num
  have h2 : Real.exp 8 = Real.exp 1 ^ 8 := by
    rw [← Real.exp_nat_mul]
    norm_num
  have h3 : Real.exp 1 ^ 8 < 2.7182818286 ^ 8 := by
    apply pow_lt_pow_left₀ Real.exp_one_lt_d9 (le_of_lt (Real.exp_pos 1))
    norm_num
  have h4 : (2.7182818286 : ℝ) ^ 8 < 2981 := by norm_num
  linarith

theorem kernel_head_lt : td_fdown1 0 + td_fdown2 0 < -(0.2 / 2981 : ℝ) := by
  have h1 : td_fdown1 0 < 0 := td_fdown1_neg 0
  have h2 : td_fdown2 0 < -(0.2 / 2981 : ℝ) := by
    have h4 : td_down2.2.2.2 = 0 := by norm_num [td_down2]
    have hA : td_down2.1 = -0.2 := by norm_num [td_down2]
    have harg : -((0 : ℝ) - td_down2.2.1) ^ 2 / (2 * td_down2.2.2.1 ^ 2) =
        -(225 / 32 : ℝ) := by norm_num [td_down2]
    unfold td_fdown2
    rw [h4, hA, harg]
    have hgt : (1 / 2981 : ℝ) < Real.exp (-(225 / 32 : ℝ)) := by
      rw [Real.exp_neg, one_div]
      exact inv_strictAnti₀ (Real.exp_pos _) exp_quotient_bound
    linarith
  linarith

theorem n_pts_half : n_pts ((2e-7 : ℝ) - 0) = 0 := by
  unfold n_pts
  have h : ((1e-7 : ℝ) / (2e-7 - 0)) = 1 / 2 := by norm_num
  rw [h]
  have h0 : ⌊(1 / 2 : ℝ)⌋ = 0 := by
    rw [Int.floor_eq_zero_iff]
    constructor <;> norm_num
  rw [h0]
  rfl

theorem diodeTimes_single (dt : ℝ) (h : n_pts dt = 0) : diodeTimes dt = [0] := by
  unfold diodeTimes
  rw [h]
  simp [List.range_succ]

theorem diodeResp_single (dt : ℝ) (h : n_pts dt = 0) :
    diodeResp dt = [td_fdown1 0 + td_fdown2 0] := by
  unfold diodeResp
  rw [diodeTimes_single dt h]
  simp only [List.map_cons, List.map_nil]
  rw [if_neg]
  · norm_num
  · show ¬ td_up.2.1 < 0
    norm_num [td_up, td_up_init]

theorem td_values_const (st : ARAAntennaSystem) (v : ℝ) :
    td_values st ⟨[0, 2e-7], [v, v], ValueType.voltage⟩ =
      [v ^ 2 / st.resistance * (td_fdown1 0 + td_fdown2 0) * (2e-7 - 0),
        v ^ 2 / st.resistance * (td_fdown1 0 + td_fdown2 0) * (2e-7 - 0)] := by
  have hdt : Sig.dt ⟨[0, 2e-7], [v, v], ValueType.voltage⟩ = (2e-7 : ℝ) - 0 := rfl
  unfold td_values
  rw [hdt, diodeResp_single _ n_pts_half]
  show ((fullConv ([v, v].map (fun x => x ^ 2 / st.resistance))
      [td_fdown1 0 + td_fdown2 0]).map (· * ((2e-7 : ℝ) - 0))).take 2 = _
  simp [fullConv, List.range_succ, Finset.sum_range_succ]

theorem tunnel_diode_const (st : ARAAntennaSystem) (v : ℝ) :
    tunnel_diode st ⟨[0, 2e-7], [v, v], ValueType.voltage⟩ =
      Except.ok ⟨[0, 2e-7],
        [v ^ 2 / st.resistance * (td_fdown1 0 + td_fdown2 0) * (2e-7 - 0),
          v ^ 2 / st.resistance * (td_fdown1 0 + td_fdown2 0) * (2e-7 - 0)],
        ValueType.undefined⟩ := by
  unfold tunnel_diode
  rw [if_neg (by simp)]
  rw [td_values_const]

theorem tunnel_diode_zero (st : ARAAntennaSystem) :
    tunnel_diode st sigZero = Except.ok powerZero := by
  have h := tunnel_diode_const st 0
  rw [show sigZero = ⟨[0, 2e-7], [(0 : ℝ), 0], ValueType.voltage⟩ from rfl, h]
  unfold powerZero
  norm_num

/- ------------------------------------------------------------------ -/
/- C3: trigger band characterization and threshold scenarios           -/
/- ------------------------------------------------------------------ -/

/-- C3: `trigger` returns true iff the tunnel-diode output's minimum falls
strictly below `mean - rms*|threshold|` or its maximum rises strictly above
`mean + rms*|threshold|`; with calibration mean 0, rms 1 and threshold 5, a
diode-output waveform with maximum value 6.2 triggers, while one with all
values strictly inside `(-5, 5)` does not. -/
theorem trigger_band_characterization :
    (∀ (st : ARAAntennaSystem) (s p : Sig), tunnel_diode st s = Except.ok p →
      (trigger st s = Except.ok true ↔
        (listMin p.values < low_trigger st ∨ listMax p.values > high_trigger st))) ∧
    (∀ (st : ARAAntennaSystem) (p : Sig), st.power_mean = 0 → st.power_rms = 1 →
      st.power_threshold = 5 → listMax p.values = 6.2 →
      trigger_decision st p = true) ∧
    (∀ (st : ARAAntennaSystem) (p : Sig), st.power_mean = 0 → st.power_rms = 1 →
      st.power_threshold = 5 → (∀ v ∈ p.values, -5 < v ∧ v < 5) →
      trigger_decision st p = false) := by
  refine ⟨?_, ?_, ?_⟩
  · intro st s p h
    unfold trigger
    rw [h]
    show Except.ok (trigger_decision st p) = Except.ok true ↔ _
    rw [Except.ok.injEq]
    unfold trigger_decision
    exact decide_eq_true_iff
  · intro st p h1 h2 h3 hmax
    unfold trigger_decision
    rw [decide_eq_true_eq]
    right
    rw [hmax]
    unfold high_trigger
    rw [h1, h2, h3]
    norm_num
  · intro st p h1 h2 h3 hin
    unfold trigger_decision
    rw [decide_eq_false_iff_not]
    push_neg
    unfold low_trigger high_trigger
    rw [h1, h2, h3]
    norm_num
    constructor
    · exact le_of_lt (lt_listMin (-5) p.values (by norm_num)
        (fun x hx => (hin x hx).1))
    · exact le_of_lt (listMax_lt 5 p.values (by norm_num)
        (fun x hx => (hin x hx).2))

/-- Witness for C3: the band test on a concrete zero diode output, a
waveform with maximum 6.2 (triggers) and one inside `(-5, 5)` (does not). -/
theorem trigger_band_characterization_witness :
    (trigger stUnitCal sigZero = Except.ok true ↔
      (listMin powerZero.values < low_trigger stUnitCal ∨
        listMax powerZero.values > high_trigger stUnitCal)) ∧
    trigger_decision stUnitCal ⟨[0], [6.2], ValueType.undefined⟩ = true ∧
    trigger_decision stUnitCal ⟨[0, 2e-7], [1, -2], ValueType.undefined⟩ = false :=
  ⟨trigger_band_characterization.1 stUnitCal sigZero powerZero
      (tunnel_diode_zero stUnitCal),
    trigger_band_characterization.2.1 stUnitCal ⟨[0], [6.2], ValueType.undefined⟩
      rfl rfl rfl rfl,
    trigger_band_characterization.2.2 stUnitCal
      ⟨[0, 2e-7], [1, -2], ValueType.undefined⟩ rfl rfl rfl
      (by
        intro v hv
        simp only [List.mem_cons, List.not_mem_nil, or_false] at hv
        rcases hv with h | h <;> subst h <;> constructor <;> norm_num)⟩

/- ------------------------------------------------------------------ -/
/- C4: tunnel_diode computes the truncated scaled convolution           -/
/- ------------------------------------------------------------------ -/

theorem td_values_eq_spec (st : ARAAntennaSystem) (s : Sig)
    (hlen : s.times.length = s.values.length) :
    td_values st s = tunnel_diode_spec_values st s := by
  unfold td_values tunnel_diode_spec_values fullConv
  rw [List.map_map, ← List.map_take, List.take_range, hlen]
  have hble : s.values.length ≤
      (s.values.map (fun v => v ^ 2 / st.resistance)).length +
        (diodeResp s.dt).length - 1 := by
    have h2 : (diodeResp s.dt).length = n_pts s.dt + 1 := by
      simp [diodeResp, diodeTimes]
    rw [List.length_map, h2]
    omega
  rw [Nat.min_eq_left hble]
  apply List.map_congr_left
  intro k _
  show (∑ i in Finset.range (k + 1),
      (s.values.map (fun v => v ^ 2 / st.resistance)).getD i 0 *
        (diodeResp s.dt).getD (k - i) 0) * s.dt = _
  congr 1
  apply Finset.sum_congr rfl
  intro i _
  rw [getD_map_zero (fun v => v ^ 2 / st.resistance) (by simp) s.values i]

/-- C4: on a voltage-type input whose time and value arrays have the same
length, `tunnel_diode` returns the full convolution of the squared values
divided by the antenna resistance with the sampled three-lobe kernel,
truncated to the input's original number of samples and scaled by the
sample spacing `dt`; on any other value type it raises and produces no
output. -/
theorem tunnel_diode_matches_spec (st : ARAAntennaSystem) (s : Sig)
    (hlen : s.times.length = s.values.length) :
    (s.value_type = ValueType.voltage →
      tunnel_diode st s =
        Except.ok ⟨s.times, tunnel_diode_spec_values st s, ValueType.undefined⟩) ∧
    (s.value_type ≠ ValueType.voltage →
      ∃ e, tunnel_diode st s = Except.error e) := by
  constructor
  · intro hv
    unfold tunnel_diode
    rw [if_neg (by simp [hv])]
    rw [td_values_eq_spec st s hlen]
  · intro hv
    unfold tunnel_diode
    rw [if_pos hv]
    exact ⟨_, rfl⟩

/-- Witness for C4: the convolution identity at a concrete voltage signal,
and the rejection of a power-type signal. -/
theorem tunnel_diode_matches_spec_witness :
    (tunnel_diode stUnitCal sigZero =
      Except.ok ⟨sigZero.times, tunnel_diode_spec_values stUnitCal sigZero,
        ValueType.undefined⟩) ∧
    (∃ e, tunnel_diode stUnitCal ⟨[0], [1], ValueType.power⟩ = Except.error e) :=
  ⟨(tunnel_diode_matches_spec stUnitCal sigZero rfl).1 rfl,
    (tunnel_diode_matches_spec stUnitCal ⟨[0], [1], ValueType.power⟩ rfl).2
      (by simp)⟩

/- ------------------------------------------------------------------ -/
/- C2: calibration skips the tunnel diode (code bug)                   -/
/- ------------------------------------------------------------------ -/

/-- C2 (code bug): `setup_antenna` records the mean of the *raw* noise
waveform, not of its tunnel-diode response as both the spec and the
in-source comment describe: on a constant unit noise waveform the code's
cached mean is 1, while the documented quantity is strictly negative. -/
theorem setup_skips_tunnel_diode :
    setup_power_mean noiseConst = 1 ∧
      spec_power_mean stUnitCal noiseConst < 0 ∧
      setup_power_mean noiseConst ≠ spec_power_mean stUnitCal noiseConst := by
  have hc : td_fdown1 0 + td_fdown2 0 < 0 := by
    have := td_fdown1_neg 0
    have := td_fdown2_neg 0
    linarith
  have hmean : setup_power_mean noiseConst = 1 := by
    unfold setup_power_mean npMean noiseConst
    norm_num
  have hres : stUnitCal.resistance = 100 := rfl
  have hspec : spec_power_mean stUnitCal noiseConst < 0 := by
    unfold spec_power_mean
    rw [show noiseConst = ⟨[0, 2e-7], [(1 : ℝ), 1], ValueType.voltage⟩ from rfl]
    rw [td_values_const]
    unfold npMean
    rw [hres]
    simp only [List.sum_cons, List.sum_nil, List.length_cons, List.length_nil]
    push_cast
    nlinarith
  refine ⟨hmean, hspec, ?_⟩
  rw [hmean]
  exact ne_of_gt (lt_trans hspec zero_lt_one)

/- ------------------------------------------------------------------ -/
/- C1: trigger does not apply front_end                                -/
/- ------------------------------------------------------------------ -/

/-- Counterexample to C1 as stated: at amplification 0 and calibration
(mean 0, rms 1, threshold 5), a large constant voltage signal makes the
actual `trigger` return true, while the claimed chain (`front_end` then
`tunnel_diode`) gives a different result: the front-end output is not a
voltage-type signal, so the claimed chain raises instead — and even
granting it voltage type, its all-zero amplified values would stay inside
the band. -/
theorem trigger_no_front_end_cex :
    trigger stNoAmp sigBig = Except.ok true ∧
      trigger_claimed stNoAmp sigBig ≠ trigger stNoAmp sigBig := by
  have hres : stNoAmp.resistance = 100 := rfl
  have htd : tunnel_diode stNoAmp sigBig =
      Except.ok ⟨[0, 2e-7],
        [(1e7 : ℝ) ^ 2 / stNoAmp.resistance * (td_fdown1 0 + td_fdown2 0) * (2e-7 - 0),
          (1e7 : ℝ) ^ 2 / stNoAmp.resistance * (td_fdown1 0 + td_fdown2 0) * (2e-7 - 0)],
        ValueType.undefined⟩ := by
    rw [show sigBig = ⟨[0, 2e-7], [(1e7 : ℝ), 1e7], ValueType.voltage⟩ from rfl]
    exact tunnel_diode_const stNoAmp 1e7
  have hval : (1e7 : ℝ) ^ 2 / stNoAmp.resistance * (td_fdown1 0 + td_fdown2 0) *
      (2e-7 - 0) < -5 := by
    rw [hres]
    nlinarith [kernel_head_lt]
  have hok : trigger stNoAmp sigBig = Except.ok true := by
    unfold trigger
    rw [htd]
    show Except.ok (trigger_decision stNoAmp _) = Except.ok true
    rw [Except.ok.injEq]
    unfold trigger_decision
    rw [decide_eq_true_eq]
    left
    have hlow : low_trigger stNoAmp = -5 := by
      unfold low_trigger
      norm_num [stNoAmp]
    rw [hlow, listMin_pair, min_self]
    exact hval
  refine ⟨hok, ?_⟩
  rw [hok]
  unfold trigger_claimed
  rw [show tunnel_diode stNoAmp (front_end stNoAmp sigBig) =
      Except.error "Tunnel diode only accepts voltage signals" from by
    unfold tunnel_diode front_end
    rw [if_pos (by simp)]]
  simp

/-- C1 (amended): `trigger` applies `tunnel_diode` directly to its input —
`front_end` is not applied inside `trigger` — and makes the threshold
comparison on the tunnel-diode output. -/
theorem trigger_is_tunnel_diode_then_band (st : ARAAntennaSystem) (s p : Sig)
    (h : tunnel_diode st s = Except.ok p) :
    trigger st s = Except.ok (trigger_decision st p) := by
  unfold trigger
  rw [h]

/-- Witness for the amended C1 at a concrete zero signal. -/
theorem trigger_is_tunnel_diode_then_band_witness :
    tunnel_diode stNoAmp sigZero = Except.ok powerZero ∧
      trigger stNoAmp sigZero = Except.ok (trigger_decision stNoAmp powerZero) :=
  ⟨tunnel_diode_zero stNoAmp,
    trigger_is_tunnel_diode_then_band stNoAmp sigZero powerZero
      (tunnel_diode_zero stNoAmp)⟩

end PyrexARA
